import Mathlib

set_option maxHeartbeats 1000000

/-!
Verification development for the household "rewards/strikes" tracker.

The repository holds two independent front-ends over the same conceptual
state machine:
  * `src/main.py`  — the web (Flask) variant, embedded below in namespace `Web`;
  * `src/utils.py` — the desktop (customtkinter) variant, embedded below in
    namespace `Desktop`.

The embedding is shallow: the process-wide mutable `data` dict becomes an
explicit state value threaded through the operations; file-system effects
(the `data.json` storage file and `.bak` backup files) become an explicit
`FS` value; every call to the audit logger `log` / `log_event` is modelled
by returning the list of messages the operation emits.  JSON serialization
(`json.dump` / `json.loads`) is modelled at the level of parsed JSON values
(`JVal`): a stored file either holds the valid serialization of a `JVal`
(`FileData.valid`) or bytes that are empty/unparsable (`FileData.corrupt`);
this mirrors the partition `json.loads` induces on file contents.
Exceptions are modelled with `Except`: a `.error` value marks a code path
on which the Python code raises.  Timestamps and dates are opaque strings
supplied as arguments.
-/

/-- Parsed JSON values, the results of `json.loads` (and inputs of
`json.dump`).  Python dicts become `jobj` association lists (keys unique). -/
inductive JVal where
  | jnum (n : Int)
  | jstr (s : String)
  | jbool (b : Bool)
  | jnull
  | jarr (items : List JVal)
  | jobj (fields : List (String × JVal))

/-- Python `d.get(k)` on a dict: association-list lookup. -/
def jLookup (fields : List (String × JVal)) (k : String) : Option JVal :=
  match fields.find? (fun p => p.1 == k) with
  | some p => some p.2
  | none => none

/-- Decode every element of a JSON array, failing if any element fails. -/
def decodeList (f : JVal → Option α) : List JVal → Option (List α)
  | [] => some []
  | x :: xs =>
    match f x, decodeList f xs with
    | some a, some rest => some (a :: rest)
    | _, _ => none

/-- Python list indexing `xs[i]` for an `int` index: non-negative indices
from the front, negative indices from the back, `none` when the index is
out of range (Python raises `IndexError` there). -/
def pyListGet (xs : List α) (i : Int) : Option α :=
  if 0 ≤ i then xs[i.toNat]?
  else if 0 ≤ i + xs.length then xs[(i + (xs.length : Int)).toNat]?
  else none

/-- A stored file: either the valid JSON serialization of a value, or
bytes that are empty or unparsable (`json.loads` raises on them). -/
inductive FileData where
  | corrupt (bytes : String)
  | valid (v : JVal)

/-- The file-system slice the program touches: the `data.json` storage file
(`none` = absent) and the `.bak` backup files created so far (name,
content); backup names embed a timestamp and are never overwritten. -/
structure FS where
  dataFile : Option FileData
  backups : List (String × FileData)

namespace Desktop

/-- A recorded rule violation, `src/utils.py` `add_strike_to_current`:
`{"rule_index": .., "reason": .., "time": ..}`. -/
structure Strike where
  rule_index : Int
  reason : String
  time : String
deriving DecidableEq, Repr

/-- A day dict of the desktop variant, `src/utils.py` `_start_new_day`:
`{"id": .., "date": .., "strikes": [..]}`; the `point_awarded` key is
absent until `end_day` sets it to `True`, and the code always reads it with
`.get("point_awarded", False)`, so it is modelled as a `Bool` that is
`false` while the key is absent. -/
structure Day where
  id : Int
  date : String
  strikes : List Strike
  point_awarded : Bool
deriving DecidableEq, Repr

/-- The process-wide `self.data` dict: `{"points": .., "days": [..]}`. -/
structure RewardsData where
  points : Int
  days : List Day
deriving DecidableEq, Repr

/-- The fixed 8-entry rule catalog of `src/utils.py`. -/
def RULES : List String :=
  [ "1. No hitting or touching in any way that might hurt somebody else mentally or for real.",
    "2. Do NOT disrespect babysitters, parents, your siblings, or anybody in general.",
    "3. Do not under any circumstance, even if you are asked, throw ANYTHING, especially when you are told not to.",
    "4. When someone tells you to do something, DO IT without arguments.",
    "5. Stay in timeout when told!",
    "6. Follow all directions and rules from adults or whoever is watching you.",
    "7. Be safe. If something you are doing you don\x27t think is safe, then DON\x27T do it!",
    "8. Other (not on this list)" ]

/-- `src/utils.py` `_start_new_day`: appends
`{"id": len(days)+1, "date": date, "strikes": []}` to `days`, makes it the
current day, saves, and logs.  Returns the new state and the log messages. -/
def start_new_day (d : RewardsData) (date : String) : RewardsData × List String :=
  let next_id : Int := (d.days.length : Int) + 1
  let new_day : Day := ⟨next_id, date, [], false⟩
  (⟨d.points, d.days ++ [new_day]⟩,
   ["New day started (Day " ++ toString next_id ++ ")"])

/-- `src/utils.py` `end_day`: if the current (last) day has fewer than 3
strikes and `point_awarded` is not set, award one point and set the flag;
otherwise leave `points` alone.  Then `_start_new_day`.  `self.current_day`
always aliases `self.data["days"][-1]`, so the current day is modelled as
the last list element; the `none` branch is dead code (the app guarantees a
current day from `__init__` on). -/
def end_day (d : RewardsData) (date : String) : RewardsData × List String :=
  match d.days.getLast? with
  | none => (d, [])
  | some cur =>
    let n := cur.strikes.length
    if n < 3 ∧ cur.point_awarded = false then
      let d1 : RewardsData := ⟨d.points + 1, d.days.dropLast ++ [{cur with point_awarded := true}]⟩
      let r := start_new_day d1 date
      (r.1, ("Day " ++ toString cur.id ++ " ended — +1 point awarded.") :: r.2)
    else
      let r := start_new_day d date
      (r.1, ("Day " ++ toString cur.id ++ " ended — no point (strikes: " ++ toString n ++ ").") :: r.2)

/-- `src/utils.py` `add_strike_to_current`: a no-op (logged) once the
current day already has 3 strikes; otherwise `RULES[rule_index]` is read —
an out-of-range index raises `IndexError` there (modelled as `.error`,
before any state change) — and the structured strike is appended to the
current day.  (The threaded audio dispatch has no effect on state.) -/
def add_strike_to_current (d : RewardsData) (rule_index : Int) (time : String) :
    Except String (RewardsData × List String) :=
  match d.days.getLast? with
  | none => .ok (d, [])
  | some cur =>
    if 3 ≤ cur.strikes.length then
      .ok (d, ["Strike limit reached for current day."])
    else
      match pyListGet RULES rule_index with
      | none => .error "IndexError: list index out of range"
      | some rule_text =>
        .ok (⟨d.points, d.days.dropLast ++ [{cur with strikes := cur.strikes ++ [⟨rule_index, rule_text, time⟩]}]⟩,
             ["Strike recorded: " ++ rule_text])

/-- `src/utils.py` `redeem_points`: deduct `cost` iff `points >= cost`,
else leave the state untouched and log the failure. -/
def redeem_points (d : RewardsData) (cost : Int) (reward : String) : RewardsData × List String :=
  if cost ≤ d.points then
    (⟨d.points - cost, d.days⟩, ["Redeemed " ++ toString cost ++ " points for " ++ reward ++ "."])
  else
    (d, ["Redeem failed (not enough points) for " ++ reward ++ "."])

/-- `src/utils.py` `manual_add_point`. -/
def manual_add_point (d : RewardsData) : RewardsData × List String :=
  (⟨d.points + 1, d.days⟩, ["Manual +1 point (System)."])

/-- `src/utils.py` `manual_remove_point`: decrements by exactly 1 only when
`points > 0`; otherwise does nothing (and logs nothing). -/
def manual_remove_point (d : RewardsData) : RewardsData × List String :=
  if 0 < d.points then (⟨d.points - 1, d.days⟩, ["Manual -1 point (System)."])
  else (d, [])

/-- Encoding of a strike as the dict `json.dump` writes. -/
def encodeStrike (s : Strike) : JVal :=
  .jobj [("rule_index", .jnum s.rule_index), ("reason", .jstr s.reason), ("time", .jstr s.time)]

/-- Encoding of a day dict: the `point_awarded` key is present only when the
flag was set (the code only ever assigns `True` to it). -/
def encodeDay (day : Day) : JVal :=
  .jobj ([("id", .jnum day.id), ("date", .jstr day.date),
          ("strikes", .jarr (day.strikes.map encodeStrike))] ++
         (if day.point_awarded then [("point_awarded", .jbool true)] else []))

/-- Encoding of the whole `self.data` dict. -/
def encodeState (d : RewardsData) : JVal :=
  .jobj [("points", .jnum d.points), ("days", .jarr (d.days.map encodeDay))]

/-- Reading a strike dict back, as the schema fixes it. -/
def decodeStrike : JVal → Option Strike
  | .jobj f =>
    match jLookup f "rule_index", jLookup f "reason", jLookup f "time" with
    | some (.jnum i), some (.jstr r), some (.jstr t) => some ⟨i, r, t⟩
    | _, _, _ => none
  | _ => none

/-- Reading a day dict back, mirroring the code's accessors: `day["id"]`
(required), `day.get("date", "")`, `day.get("strikes", [])`,
`day.get("point_awarded", False)`. -/
def decodeDay : JVal → Option Day
  | .jobj f =>
    match jLookup f "id" with
    | some (.jnum i) =>
      let dateV : Option String :=
        match jLookup f "date" with
        | none => some ""
        | some (.jstr s) => some s
        | some _ => none
      let strikesV : Option (List Strike) :=
        match jLookup f "strikes" with
        | none => some []
        | some (.jarr xs) => decodeList decodeStrike xs
        | some _ => none
      let paV : Option Bool :=
        match jLookup f "point_awarded" with
        | none => some false
        | some (.jbool b) => some b
        | some _ => none
      match dateV, strikesV, paV with
      | some dt, some ss, some pa => some ⟨i, dt, ss, pa⟩
      | _, _, _ => none
    | _ => none
  | _ => none

/-- Reading the whole state dict back, mirroring `self.data.get("points", 0)`
and `self.data.get("days")` (missing `days` is treated as empty). -/
def decodeState : JVal → Option RewardsData
  | .jobj f =>
    let pointsV : Option Int :=
      match jLookup f "points" with
      | none => some 0
      | some (.jnum n) => some n
      | some _ => none
    let daysV : Option (List Day) :=
      match jLookup f "days" with
      | none => some []
      | some (.jarr xs) => decodeList decodeDay xs
      | some _ => none
    match pointsV, daysV with
    | some p, some ds => some ⟨p, ds⟩
    | _, _ => none
  | _ => none

/-- `src/utils.py` `save_data`: overwrite `data.json` with the state's JSON
serialization (write failures are caught and logged in the source; the
model takes the successful path). -/
def save_data (d : RewardsData) (fs : FS) : FS :=
  { fs with dataFile := some (.valid (encodeState d)) }

/-- The default structure `{"points": 0, "days": []}` returned on
absent/corrupt storage. -/
def defaultJ : JVal := .jobj [("points", .jnum 0), ("days", .jarr [])]

/-- `src/utils.py` `safe_load_data`: absent file yields the default;
a file holding valid JSON is parsed and returned; empty or unparsable
contents are moved to `data_corrupt_<ts>.bak` (the original bytes are kept
there), the event is logged, and the default is returned.  The function is
total: no branch raises to the caller. -/
def safe_load_data (fs : FS) (ts : String) : JVal × FS × List String :=
  match fs.dataFile with
  | none => (defaultJ, fs, [])
  | some (.valid v) => (v, fs, [])
  | some (.corrupt s) =>
    let name := "data_corrupt_" ++ ts ++ ".bak"
    (defaultJ,
     { dataFile := none, backups := fs.backups ++ [(name, .corrupt s)] },
     ["Bad data.json detected; backed up to " ++ name])

/-- `src/utils.py` `reset_system`: if `data.json` exists, move it to
`data_reset_<ts>.bak` (the prior snapshot stays recoverable there);
replace `self.data` with `{"points": 0, "days": []}` (the previous
in-memory state is discarded, so it is not a parameter), save, log
"System reset to default state.", then `_start_new_day` (which saves and
logs again). -/
def reset_system (fs : FS) (ts date : String) : RewardsData × FS × List String :=
  let bk :=
    match fs.dataFile with
    | some c =>
      let name := "data_reset_" ++ ts ++ ".bak"
      ((⟨none, fs.backups ++ [(name, c)]⟩ : FS),
       ["Reset: backed up data.json -> " ++ name])
    | none => (fs, [])
  let d1 : RewardsData := ⟨0, []⟩
  let fs2 := save_data d1 bk.1
  let r := start_new_day d1 date
  (r.1, save_data r.1 fs2, bk.2 ++ ["System reset to default state."] ++ r.2)

/-- `src/utils.py` `RewardsApp.__init__` (the state/persistence part):
`safe_load_data`, then `_start_new_day` if the loaded `days` is empty,
else the last loaded day becomes the current day.  `none` marks loaded
JSON outside the storage schema, on which the source would fail later at a
field access. -/
def app_init (fs : FS) (ts date : String) : Option (RewardsData × FS × List String) :=
  let l := safe_load_data fs ts
  match decodeState l.1 with
  | none => none
  | some d0 =>
    if d0.days.isEmpty then
      let r := start_new_day d0 date
      some (r.1, save_data r.1 l.2.1, l.2.2 ++ r.2)
    else
      some (d0, l.2.1, l.2.2)

/-- The state right after a fresh desktop start (absent/empty/corrupt
storage): `{"points": 0, "days": []}` followed by `_start_new_day`. -/
def freshD (date : String) : RewardsData :=
  ⟨0, [⟨1, date, [], false⟩]⟩

/-- States the desktop app can reach from a fresh start through its own
operations (each op saving as it goes); `add_strike_to_current` steps only
along its non-raising paths. -/
inductive DReach : RewardsData → Prop where
  | init (date : String) : DReach (freshD date)
  | strike {d p} (i : Int) (t : String) :
      DReach d → add_strike_to_current d i t = .ok p → DReach p.1
  | endday {d} (date : String) : DReach d → DReach (end_day d date).1
  | redeem {d} (cost : Int) (reward : String) : DReach d → DReach (redeem_points d cost reward).1
  | addpt {d} : DReach d → DReach (manual_add_point d).1
  | rmpt {d} : DReach d → DReach (manual_remove_point d).1
  | reset {d} (fs : FS) (ts date : String) : DReach d → DReach (reset_system fs ts date).1

end Desktop

namespace Web

/-- A day dict of the web variant, `src/main.py`: `{"id": .., "strikes": [..]}`
with strikes stored as bare rule-text strings and no `point_awarded` key. -/
structure WDay where
  id : Int
  strikes : List String
deriving DecidableEq, Repr

/-- The module-level `data` dict of `src/main.py`. -/
structure WState where
  points : Int
  days : List WDay
deriving DecidableEq, Repr

/-- The fixed 8-entry rule catalog of `src/main.py` (no number prefixes). -/
def RULES : List String :=
  [ "No hitting or touching in any way that might hurt somebody else mentally or for real.",
    "Do NOT disrespect babysitters, parents, your siblings, or anybody in general.",
    "Do not under any circumstance, even if you are asked, throw ANYTHING, especially when you are told not to.",
    "When someone tells you to do something, DO IT without arguments.",
    "Stay in timeout when told!",
    "Follow all directions and rules from adults or whoever is watching you.",
    "Be safe. If something you are doing you don\x27t think is safe, then DON\x27T do it!",
    "Other (not on this list)" ]

/-- `src/main.py` `current_day`: lazily appends `{"id": 1, "strikes": []}`
when `days` is empty, then returns the last day (with the possibly-updated
state, since the append mutates the global dict). -/
def current_day (s : WState) : WState × WDay :=
  match s.days.getLast? with
  | some day => (s, day)
  | none => (⟨s.points, [⟨1, []⟩]⟩, ⟨1, []⟩)

/-- `src/main.py` `add_strike` (`POST /strike`): appends the submitted rule
string to the current day's strikes, saves, logs — and only then resolves
`RULES.index(rule)` for the audio URL, which raises `ValueError` for a rule
string not in the catalog.  The state change and log line precede the
raise, so they are returned alongside the `Except`. -/
def add_strike (s : WState) (rule : String) : WState × List String × Except String String :=
  let c := current_day s
  let day1 : WDay := ⟨c.2.id, c.2.strikes ++ [rule]⟩
  let s2 : WState := ⟨c.1.points, c.1.days.dropLast ++ [day1]⟩
  let logs := ["Strike added: " ++ rule]
  match RULES.indexOf? rule with
  | some i => (s2, logs, .ok ("/audio/rule" ++ toString (i + 1) ++ ".mp3"))
  | none => (s2, logs, .error "ValueError: substring not found")

/-- `src/main.py` `end_day` (`POST /end_day`): award a point iff the current
day has fewer than 3 strikes (there is no `point_awarded` flag in this
variant), then append `{"id": day["id"] + 1, "strikes": []}` and save.
Note that on an empty `days` list `current_day()` first creates Day 1. -/
def end_day (s : WState) : WState × List String :=
  let c := current_day s
  let strikes := c.2.strikes.length
  let a :=
    if strikes < 3 then
      ((⟨c.1.points + 1, c.1.days⟩ : WState),
       ["Day " ++ toString c.2.id ++ " ended — +1 point"])
    else
      (c.1, ["Day " ++ toString c.2.id ++ " ended — no point (too many strikes)"])
  (⟨a.1.points, a.1.days ++ [⟨c.2.id + 1, []⟩]⟩, a.2)

/-- `src/main.py` `exchange` (`POST /exchange`): "toy" costs 5,
"hockey_game" costs 10; any other reward name, or an insufficient balance,
falls to the logged failure branch with no points change.  The final page
render calls `current_day()`, which lazily creates Day 1 when `days` is
empty — that (and only that) can touch `days`. -/
def exchange (s : WState) (reward : String) : WState × List String :=
  let a :=
    if reward = "toy" ∧ 5 ≤ s.points then
      ((⟨s.points - 5, s.days⟩ : WState), ["Exchanged 5 points for a toy"])
    else if reward = "hockey_game" ∧ 10 ≤ s.points then
      ((⟨s.points - 10, s.days⟩ : WState), ["Exchanged 10 points for a hockey game"])
    else
      (s, ["Exchange failed: not enough points for " ++ reward])
  ((current_day a.1).1, a.2)

/-- `src/main.py` `manual_point` (`POST /manual_point`): unconditional
`points += change` (may go negative). -/
def manual_point (s : WState) (change : Int) : WState × List String :=
  (⟨s.points + change, s.days⟩,
   ["Manual " ++ (if 0 ≤ change then "+" else "") ++ toString change ++ " points (System Menu)"])

/-- Encoding of a web day dict. -/
def encodeWDay (day : WDay) : JVal :=
  .jobj [("id", .jnum day.id), ("strikes", .jarr (day.strikes.map JVal.jstr))]

/-- Encoding of the web `data` dict. -/
def encodeW (s : WState) : JVal :=
  .jobj [("points", .jnum s.points), ("days", .jarr (s.days.map encodeWDay))]

/-- Reading a web day dict back: `day["id"]` and `day["strikes"]` are
accessed directly in the source, so both keys are required. -/
def decodeWDay : JVal → Option WDay
  | .jobj f =>
    match jLookup f "id", jLookup f "strikes" with
    | some (.jnum i), some (.jarr xs) =>
      match decodeList (fun v => match v with | .jstr s => some s | _ => none) xs with
      | some ss => some ⟨i, ss⟩
      | none => none
    | _, _ => none
  | _ => none

/-- Reading the web `data` dict back (`data["points"]`, `data["days"]`
accessed directly). -/
def decodeWState : JVal → Option WState
  | .jobj f =>
    match jLookup f "points", jLookup f "days" with
    | some (.jnum p), some (.jarr xs) =>
      match decodeList decodeWDay xs with
      | some ds => some ⟨p, ds⟩
      | none => none
    | _, _ => none
  | _ => none

/-- `src/main.py` module-level initialization (lines 23-32): absent file →
write the default and use it; parsable file → use its contents; unparsable
or empty file → bare `except` falls back to the default WITHOUT creating
any backup (the file is left in place and simply overwritten by the next
`save_data`).  Returns (state, storage file afterwards, backups created).
A parsable file outside the schema is kept as a raw dict by the source and
only fails on later field access; the model maps it to the default, a case
no theorem below relies on. -/
def web_init (file : Option FileData) : WState × Option FileData × List (String × FileData) :=
  match file with
  | none =>
    let d : WState := ⟨0, []⟩
    (d, some (.valid (encodeW d)), [])
  | some (.corrupt s) => (⟨0, []⟩, some (.corrupt s), [])
  | some (.valid v) =>
    match decodeWState v with
    | some w => (w, some (.valid v), [])
    | none => (⟨0, []⟩, some (.valid v), [])

/-- `src/main.py` `save_data`: overwrite `data.json` with the serialized
state. -/
def save_data (s : WState) (fs : FS) : FS :=
  { fs with dataFile := some (.valid (encodeW s)) }

/-- `src/main.py` `reset_system` (`POST /reset_system`): replace `data` with
`{"points": 0, "days": []}`, save (overwriting the storage file — no backup
of the prior snapshot is taken in this variant), log, redirect (the
redirect response renders no template, so `current_day()` is NOT called and
`days` stays empty). -/
def reset_system (fs : FS) : WState × FS × List String :=
  let d : WState := ⟨0, []⟩
  (d, save_data d fs, ["System reset to default state"])

end Web

/-! ## Helper lemmas -/

theorem decodeList_map {α : Type} (f : JVal → Option α) (g : α → JVal)
    (h : ∀ a, f (g a) = some a) : ∀ l : List α, decodeList f (l.map g) = some l := by
  intro l
  induction l with
  | nil => rfl
  | cons a rest ih => simp [decodeList, h a, ih]

namespace Desktop

theorem decodeStrike_encodeStrike (s : Strike) : decodeStrike (encodeStrike s) = some s := by
  obtain ⟨i, r, t⟩ := s
  rfl

theorem decodeDay_encodeDay (day : Day) : decodeDay (encodeDay day) = some day := by
  obtain ⟨i, dt, ss, pa⟩ := day
  have h := decodeList_map decodeStrike encodeStrike decodeStrike_encodeStrike ss
  cases pa <;>
    simp [encodeDay, decodeDay, jLookup, List.find?, h]

theorem decodeState_encodeState (d : RewardsData) : decodeState (encodeState d) = some d := by
  obtain ⟨p, ds⟩ := d
  have h := decodeList_map decodeDay encodeDay decodeDay_encodeDay ds
  simp [encodeState, decodeState, jLookup, List.find?, h]

end Desktop

namespace Web

theorem decodeWDay_encodeWDay (day : WDay) : decodeWDay (encodeWDay day) = some day := by
  obtain ⟨i, ss⟩ := day
  have h := decodeList_map (fun v => match v with | .jstr s => some s | _ => none)
    JVal.jstr (fun _ => rfl) ss
  simp [encodeWDay, decodeWDay, jLookup, List.find?, h]

theorem decodeWState_encodeW (s : WState) : decodeWState (encodeW s) = some s := by
  obtain ⟨p, ds⟩ := s
  have h := decodeList_map decodeWDay encodeWDay decodeWDay_encodeWDay ds
  simp [encodeW, decodeWState, jLookup, List.find?, h]

end Web

namespace Desktop

/-- The ids of the days, in order. -/
def dayIds (days : List Day) : List Int := days.map (fun day => day.id)

/-- `[1, 2, ..., n]` as `Int`s. -/
def rangeIds (n : Nat) : List Int := (List.range n).map (fun i => (i : Int) + 1)

/-- The day ids are contiguous starting at 1. -/
def Contig (days : List Day) : Prop := dayIds days = rangeIds days.length

/-- The state invariant of the desktop variant: a current day exists,
day ids are contiguous from 1, and no day holds more than 3 strikes. -/
def DInv (d : RewardsData) : Prop :=
  d.days ≠ [] ∧ Contig d.days ∧ ∀ day ∈ d.days, day.strikes.length ≤ 3

theorem dayIds_append (l₁ l₂ : List Day) : dayIds (l₁ ++ l₂) = dayIds l₁ ++ dayIds l₂ := by
  simp [dayIds]

theorem rangeIds_succ (n : Nat) : rangeIds (n + 1) = rangeIds n ++ [(n : Int) + 1] := by
  simp [rangeIds, List.range_succ]

/-- Replacing the last day by one with the same id keeps contiguity. -/
theorem contig_set_last {rest : List Day} {cur cur' : Day}
    (hid : cur'.id = cur.id) (h : Contig (rest ++ [cur])) : Contig (rest ++ [cur']) := by
  unfold Contig at h ⊢
  simpa [dayIds_append, dayIds, hid] using h

/-- Appending a day with id `length + 1` keeps contiguity. -/
theorem contig_append_next {l : List Day} {day : Day}
    (hid : day.id = (l.length : Int) + 1) (h : Contig l) : Contig (l ++ [day]) := by
  unfold Contig at h ⊢
  simp [dayIds_append, dayIds, hid, rangeIds_succ, h]
  exact h

theorem contig_singleton (date : String) : Contig [⟨1, date, [], false⟩] := by
  simp [Contig, dayIds, rangeIds, List.range_succ]

/-- Every state the desktop app reaches satisfies the invariant. -/
theorem dreach_inv {d : RewardsData} (h : DReach d) : DInv d := by
  induction h with
  | init date =>
    refine ⟨by simp [freshD], contig_singleton date, ?_⟩
    intro day hday
    simp [freshD] at hday
    simp [hday]
  | strike i t _ hok ih =>
    obtain ⟨hne, hc, hs⟩ := ih
    rcases List.eq_nil_or_concat _ |>.resolve_left hne with ⟨rest, cur, hdec⟩
    rw [List.concat_eq_append] at hdec
    rw [add_strike_to_current, hdec, List.getLast?_concat] at hok
    by_cases hcap : 3 ≤ cur.strikes.length
    · simp [hcap] at hok
      subst hok
      exact ⟨hne, hc, hs⟩
    · simp [hcap] at hok
      cases hrule : pyListGet RULES i with
      | none => rw [hrule] at hok; cases hok
      | some rule_text =>
        rw [hrule] at hok
        simp at hok
        rw [← hok]
        refine ⟨by simp, ?_, ?_⟩
        · exact @contig_set_last rest cur _ rfl (show Contig (rest ++ [cur]) from hdec ▸ hc)
        · intro day hday
          rcases List.mem_append.mp hday with hmem | hmem
          · exact hs day (hdec ▸ List.mem_append_left _ hmem)
          · simp at hmem
            subst hmem
            have := hs cur (hdec ▸ List.mem_append_right _ (by simp))
            simp
            omega
  | endday date _ ih =>
    obtain ⟨hne, hc, hs⟩ := ih
    rcases List.eq_nil_or_concat _ |>.resolve_left hne with ⟨rest, cur, hdec⟩
    rw [List.concat_eq_append] at hdec
    rename_i d' _
    show DInv (end_day d' date).1
    rw [end_day, hdec, List.getLast?_concat]
    by_cases hcond : cur.strikes.length < 3 ∧ cur.point_awarded = false
    · simp only [if_pos hcond, start_new_day, List.dropLast_concat]
      refine ⟨by simp, ?_, ?_⟩
      · exact contig_append_next rfl
          (@contig_set_last rest cur _ rfl (show Contig (rest ++ [cur]) from hdec ▸ hc))
      · intro day hday
        rcases List.mem_append.mp hday with hmem | hmem
        · rcases List.mem_append.mp hmem with hm | hm
          · exact hs day (hdec ▸ List.mem_append_left _ hm)
          · simp at hm
            subst hm
            have := hs cur (hdec ▸ List.mem_append_right _ (by simp))
            simpa using this
        · simp at hmem
          simp [hmem]
    · simp only [if_neg hcond, start_new_day]
      refine ⟨by simp, contig_append_next rfl hc, ?_⟩
      intro day hday
      rcases List.mem_append.mp hday with hmem | hmem
      · exact hs day hmem
      · simp at hmem
        simp [hmem]
  | redeem cost reward _ ih =>
    obtain ⟨hne, hc, hs⟩ := ih
    rename_i d' _
    show DInv (redeem_points d' cost reward).1
    rw [redeem_points]
    split <;> exact ⟨hne, hc, hs⟩
  | addpt _ ih =>
    obtain ⟨hne, hc, hs⟩ := ih
    exact ⟨hne, hc, hs⟩
  | rmpt _ ih =>
    obtain ⟨hne, hc, hs⟩ := ih
    rename_i d' _
    show DInv (manual_remove_point d').1
    rw [manual_remove_point]
    split <;> exact ⟨hne, hc, hs⟩
  | reset fs ts date _ _ =>
    refine ⟨by simp [reset_system, start_new_day], ?_, ?_⟩
    · simpa [reset_system, start_new_day] using contig_singleton date
    · intro day hday
      simp [reset_system, start_new_day] at hday
      simp [hday]

end Desktop

namespace Desktop

/-- Shape of `end_day` on a decomposed day list: the points delta, the
closed day's final flag, and the appended day, in one equation. -/
theorem end_day_shape {d : RewardsData} {rest : List Day} {cur : Day} (date : String)
    (h : d.days = rest ++ [cur]) :
    (end_day d date).1 =
      ⟨d.points + (if cur.strikes.length < 3 ∧ cur.point_awarded = false then 1 else 0),
       rest ++ [{cur with point_awarded :=
                   if cur.strikes.length < 3 ∧ cur.point_awarded = false then true
                   else cur.point_awarded},
                ⟨(d.days.length : Int) + 1, date, [], false⟩]⟩ := by
  rw [end_day, h, List.getLast?_concat]
  by_cases hc : cur.strikes.length < 3 ∧ cur.point_awarded = false
  · simp [hc, start_new_day, h, List.dropLast_concat]
  · simp [hc, start_new_day, h, List.dropLast_concat]

end Desktop

namespace Web

/-- `current_day` leaves the state alone when a day already exists. -/
theorem current_day_fst {s : WState} {day : WDay} (h : s.days.getLast? = some day) :
    current_day s = (s, day) := by
  rw [current_day, h]

/-- Shape of the web `end_day` on a decomposed day list. -/
theorem web_end_day_shape {s : WState} {wrest : List WDay} {wcur : WDay}
    (h : s.days = wrest ++ [wcur]) :
    (end_day s).1 =
      ⟨s.points + (if wcur.strikes.length < 3 then 1 else 0),
       s.days ++ [⟨wcur.id + 1, []⟩]⟩ := by
  rw [end_day, current_day_fst (by rw [h, List.getLast?_concat])]
  by_cases hc : wcur.strikes.length < 3
  · simp [hc]
  · simp [hc]

end Web

/-! ## Claim theorems -/

/-- C1: for every day (the current/last one) and every strike history in
it, `end_day` awards exactly one point iff the day's strike count is
strictly below 3 and its `point_awarded` flag is false, and otherwise
leaves `points` unchanged; the closed day's record is then immutable, so a
second consecutive `end_day` adds exactly one point — for the fresh
intermediate day, never a second one for the original day (the closed
prefix of the day list is untouched).  The web variant has no flag (it is
conceptually always false) and awards iff the strike count is below 3. -/
theorem c1_end_day_awards_iff
    (d : Desktop.RewardsData) (rest : List Desktop.Day) (cur : Desktop.Day) (dt dt2 : String)
    (h : d.days = rest ++ [cur]) :
    ((Desktop.end_day d dt).1.points =
        d.points + (if cur.strikes.length < 3 ∧ cur.point_awarded = false then 1 else 0))
    ∧ (¬(cur.strikes.length < 3 ∧ cur.point_awarded = false) →
        (Desktop.end_day d dt).1.points = d.points)
    ∧ ((Desktop.end_day d dt).1.days =
        rest ++ [{cur with point_awarded :=
                    if cur.strikes.length < 3 ∧ cur.point_awarded = false then true
                    else cur.point_awarded},
                 ⟨(d.days.length : Int) + 1, dt, [], false⟩])
    ∧ ((Desktop.end_day (Desktop.end_day d dt).1 dt2).1.points =
        (Desktop.end_day d dt).1.points + 1)
    ∧ ((Desktop.end_day (Desktop.end_day d dt).1 dt2).1.days.take (rest.length + 1) =
        (Desktop.end_day d dt).1.days.take (rest.length + 1))
    ∧ (∀ (s : Web.WState) (wrest : List Web.WDay) (wcur : Web.WDay),
        s.days = wrest ++ [wcur] →
        (Web.end_day s).1.points = s.points + (if wcur.strikes.length < 3 then 1 else 0)) := by
  have h1 := Desktop.end_day_shape dt h
  have hdays1 : (Desktop.end_day d dt).1.days =
      (rest ++ [{cur with point_awarded :=
                  if cur.strikes.length < 3 ∧ cur.point_awarded = false then true
                  else cur.point_awarded}]) ++
        [⟨(d.days.length : Int) + 1, dt, [], false⟩] := by
    rw [h1]
    simp
  have h2 := Desktop.end_day_shape dt2 hdays1
  refine ⟨by rw [h1], ?_, by rw [h1], ?_, ?_, ?_⟩
  · intro hn
    rw [h1]
    simp [hn]
  · rw [h2]
    simp
  · rw [h2, hdays1]
    have hle : rest.length + 1 ≤
        (rest ++ [{cur with point_awarded :=
                    if cur.strikes.length < 3 ∧ cur.point_awarded = false then true
                    else cur.point_awarded}]).length := by simp
    rw [List.take_append_of_le_length hle, List.take_append_of_le_length hle]
  · intro s wrest wcur hw
    rw [Web.web_end_day_shape hw]

/-- Witness for C1 at a concrete fresh day: ending Day 1 with no strikes
and flag unset awards exactly one point. -/
theorem c1_end_day_awards_iff_witness :
    (Desktop.end_day ⟨0, [⟨1, "d1", [], false⟩]⟩ "d2").1.points =
      0 + (if ([] : List Desktop.Strike).length < 3 ∧ (false : Bool) = false then 1 else 0) :=
  (c1_end_day_awards_iff ⟨0, [⟨1, "d1", [], false⟩]⟩ [] ⟨1, "d1", [], false⟩ "d2" "d3" rfl).1

/-- C2 counterexample: on the web variant's empty-days state — genuinely
reachable, e.g. right after module initialization with absent storage —
`end_day` first lazily creates Day 1 inside `current_day()` and then
appends Day 2, so one call grows `days` by 2, not by exactly 1. -/
theorem c2_end_day_length_counterexample :
    (⟨0, []⟩ : Web.WState).days.length = 0 ∧
    (Web.end_day ⟨0, []⟩).1.days.length = 2 := ⟨rfl, rfl⟩

/-- C2 amended: once a current day exists (`days` non-empty — the normal
situation, and the only one the desktop variant can be in), every
`end_day` call grows `days` by exactly 1 and the appended day has id =
previous current day's id + 1, empty strikes, and (desktop) an unset
`point_awarded` flag; in the desktop variant the appended id is computed
as `len(days) + 1`, which equals the previous current day's id + 1 exactly
when the ids are contiguous (an invariant of its reachable states, see
`c8_desktop_invariant`), hence the contiguity hypothesis. -/
theorem c2_end_day_appends_one :
    (∀ (s : Web.WState) (wrest : List Web.WDay) (wcur : Web.WDay),
      s.days = wrest ++ [wcur] →
      (Web.end_day s).1.days.length = s.days.length + 1 ∧
      (Web.end_day s).1.days.getLast? = some ⟨wcur.id + 1, []⟩)
    ∧ (∀ (d : Desktop.RewardsData) (rest : List Desktop.Day) (cur : Desktop.Day) (date : String),
        d.days = rest ++ [cur] → cur.id = (rest.length : Int) + 1 →
        (Desktop.end_day d date).1.days.length = d.days.length + 1 ∧
        (Desktop.end_day d date).1.days.getLast? = some ⟨cur.id + 1, date, [], false⟩) := by
  constructor
  · intro s wrest wcur hw
    rw [Web.web_end_day_shape hw]
    simp
  · intro d rest cur date h hid
    rw [Desktop.end_day_shape date h]
    refine ⟨by simp [h], ?_⟩
    have : rest ++ [{cur with point_awarded :=
              if cur.strikes.length < 3 ∧ cur.point_awarded = false then true
              else cur.point_awarded},
            (⟨(d.days.length : Int) + 1, date, [], false⟩ : Desktop.Day)] =
        (rest ++ [{cur with point_awarded :=
              if cur.strikes.length < 3 ∧ cur.point_awarded = false then true
              else cur.point_awarded}]) ++
          [(⟨(d.days.length : Int) + 1, date, [], false⟩ : Desktop.Day)] := by simp
    rw [this, List.getLast?_concat]
    have hlen : (d.days.length : Int) = (rest.length : Int) + 1 := by
      rw [h]
      simp
    rw [hlen, hid]

/-- Witness for C2 at a concrete one-day state: ending Day 1 appends
exactly one day, Day 2. -/
theorem c2_end_day_appends_one_witness :
    (Web.end_day ⟨0, [⟨1, []⟩]⟩).1.days.length = (⟨0, [⟨1, []⟩]⟩ : Web.WState).days.length + 1 ∧
    (Desktop.end_day ⟨0, [⟨1, "d1", [], false⟩]⟩ "d2").1.days.getLast? =
      some ⟨(1 : Int) + 1, "d2", [], false⟩ :=
  ⟨(c2_end_day_appends_one.1 ⟨0, [⟨1, []⟩]⟩ [] ⟨1, []⟩ rfl).1,
   (c2_end_day_appends_one.2 ⟨0, [⟨1, "d1", [], false⟩]⟩ [] ⟨1, "d1", [], false⟩ "d2" rfl rfl).2⟩

/-- C3: `redeem` succeeds — deducting exactly the cost and logging success
— iff the balance covers the cost; on failure the state is completely
unchanged and the failure is reported (logged).  Stated for the desktop
`redeem_points` (the web `exchange` hard-codes the same two rewards with
the same guards); the callers fix cost 5 for Toy and 10 for Hockey Game.
In particular Toy with 4 points fails leaving 4, and with 5 points
succeeds leaving 0. -/
theorem c3_redeem_iff_sufficient_points
    (d : Desktop.RewardsData) (cost : Int) (reward : String) (s : Web.WState) :
    (cost ≤ d.points →
      Desktop.redeem_points d cost reward =
        (⟨d.points - cost, d.days⟩,
         ["Redeemed " ++ toString cost ++ " points for " ++ reward ++ "."]))
    ∧ (d.points < cost →
      Desktop.redeem_points d cost reward =
        (d, ["Redeem failed (not enough points) for " ++ reward ++ "."]))
    ∧ (s.days ≠ [] →
      (5 ≤ s.points → (Web.exchange s "toy").1 = ⟨s.points - 5, s.days⟩)
      ∧ (s.points < 5 → (Web.exchange s "toy").1 = s)
      ∧ (10 ≤ s.points → (Web.exchange s "hockey_game").1 = ⟨s.points - 10, s.days⟩))
    ∧ (Desktop.redeem_points ⟨4, []⟩ 5 "Toy").1 = ⟨4, []⟩
    ∧ (Desktop.redeem_points ⟨5, []⟩ 5 "Toy").1 = ⟨0, []⟩ := by
  refine ⟨?_, ?_, ?_, by decide, by decide⟩
  · intro hp
    rw [Desktop.redeem_points, if_pos hp]
  · intro hp
    rw [Desktop.redeem_points, if_neg (by omega)]
  · intro hne
    rcases List.eq_nil_or_concat _ |>.resolve_left hne with ⟨wrest, wcur, hdec⟩
    rw [List.concat_eq_append] at hdec
    have hgl : (wrest ++ [wcur]).getLast? = some wcur := List.getLast?_concat _
    refine ⟨?_, ?_, ?_⟩
    · intro hp
      simp [Web.exchange, hp, hdec, Web.current_day, hgl]
    · intro hp
      have hp' : ¬ 5 ≤ s.points := by omega
      simp [Web.exchange, hp', hdec, Web.current_day, hgl]
    · intro hp
      simp [Web.exchange, hp, hdec, Web.current_day, hgl]

/-- Witness for C3: with 7 points, redeeming a 5-point Toy leaves 2. -/
theorem c3_redeem_iff_sufficient_points_witness :
    (Desktop.redeem_points ⟨7, []⟩ 5 "Toy").1 = ⟨2, []⟩ := by
  rw [(c3_redeem_iff_sufficient_points ⟨7, []⟩ 5 "Toy" ⟨6, [⟨1, []⟩]⟩).1 (by decide)]
  decide

/-- C4 counterexample: the web variant's `reset_system` takes no backup at
all — the storage file is simply overwritten, so the prior snapshot is
unrecoverable — and leaves `days` empty rather than establishing a fresh
Day 1 (Day 1 only appears lazily on the next `current_day()` call). -/
theorem c4_web_reset_no_backup_counterexample :
    (Web.reset_system ⟨some (.valid (Web.encodeW ⟨5, [⟨1, ["r"]⟩]⟩)), []⟩).1.days = []
    ∧ (Web.reset_system ⟨some (.valid (Web.encodeW ⟨5, [⟨1, ["r"]⟩]⟩)), []⟩).2.1.backups = [] :=
  ⟨rfl, rfl⟩

/-- C4 amended: in the desktop variant, `reset_system` from every state
first moves the existing persisted snapshot to the timestamped archive
`data_reset_<ts>.bak` (so it stays recoverable), results in the state with
`points = 0` and exactly one Day `{id 1, empty strikes, flag unset}`, and
logs the reset; the web variant's reset takes no backup and leaves `days`
empty until the next page access. -/
theorem c4_desktop_reset_backs_up (fs : FS) (ts date : String) (c : FileData)
    (h : fs.dataFile = some c) :
    (Desktop.reset_system fs ts date).1 = ⟨0, [⟨1, date, [], false⟩]⟩
    ∧ (Desktop.reset_system fs ts date).2.1.backups =
        fs.backups ++ [("data_reset_" ++ ts ++ ".bak", c)]
    ∧ "System reset to default state." ∈ (Desktop.reset_system fs ts date).2.2 := by
  refine ⟨?_, ?_, ?_⟩ <;>
    simp [Desktop.reset_system, h, Desktop.start_new_day, Desktop.save_data]

/-- Witness for C4: a concrete reset archives the old file contents. -/
theorem c4_desktop_reset_backs_up_witness :
    (Desktop.reset_system ⟨some (.corrupt "old"), []⟩ "T" "D").2.1.backups =
      ([] : List (String × FileData)) ++ [("data_reset_" ++ "T" ++ ".bak", FileData.corrupt "old")] :=
  (c4_desktop_reset_backs_up ⟨some (.corrupt "old"), []⟩ "T" "D" (.corrupt "old") rfl).2.1

/-- C5 counterexample: the web variant's module-level load of a corrupt
storage file (`except: data = {"points":0,"days":[]}`) falls back to the
default state but creates NO backup — the original bytes are preserved
nowhere and are overwritten by the next save. -/
theorem c5_web_load_no_backup_counterexample :
    (Web.web_init (some (.corrupt "garbage"))).1 = ⟨0, []⟩
    ∧ (Web.web_init (some (.corrupt "garbage"))).2.2 = [] := ⟨rfl, rfl⟩

/-- C5 amended: the desktop variant's `safe_load_data` returns the default
`{"points": 0, "days": []}` on an absent, empty, or unparsable storage
file; on the empty/unparsable case it first moves the original bytes to
the timestamped backup `data_corrupt_<ts>.bak`; it is a total function
(never raises).  The default parses to the default state.  The web
variant's loader (main.py lines 23-32) returns the default too but takes
no backup — see the counterexample. -/
theorem c5_safe_load_recovers_and_backs_up (fs : FS) (ts : String) :
    (∀ s, fs.dataFile = some (.corrupt s) →
      (Desktop.safe_load_data fs ts).1 = Desktop.defaultJ
      ∧ (Desktop.safe_load_data fs ts).2.1.backups =
          fs.backups ++ [("data_corrupt_" ++ ts ++ ".bak", .corrupt s)]
      ∧ (Desktop.safe_load_data fs ts).2.2 =
          ["Bad data.json detected; backed up to " ++ ("data_corrupt_" ++ ts ++ ".bak")])
    ∧ (fs.dataFile = none → Desktop.safe_load_data fs ts = (Desktop.defaultJ, fs, []))
    ∧ Desktop.decodeState Desktop.defaultJ = some ⟨0, []⟩ := by
  refine ⟨?_, ?_, by decide⟩
  · intro s h
    refine ⟨?_, ?_, ?_⟩ <;> simp [Desktop.safe_load_data, h]
  · intro h
    simp [Desktop.safe_load_data, h]

/-- Witness for C5: loading a concrete corrupt file yields the default. -/
theorem c5_safe_load_recovers_and_backs_up_witness :
    (Desktop.safe_load_data ⟨some (.corrupt "junk"), []⟩ "T").1 = Desktop.defaultJ :=
  ((c5_safe_load_recovers_and_backs_up ⟨some (.corrupt "junk"), []⟩ "T").1 "junk" rfl).1

/-- C6 counterexample: the web `add_strike` with a rule string outside the
catalog ("bogus") is NOT a no-op failure: it appends the unknown string to
the current day's strikes (and persists) and then raises `ValueError` in
`RULES.index(rule)` — a state change plus an exception, not a logged no-op
with a boolean result. -/
theorem c6_invalid_rule_raises_counterexample :
    (Web.add_strike ⟨0, [⟨1, []⟩]⟩ "bogus").2.2 = .error "ValueError: substring not found"
    ∧ (Web.add_strike ⟨0, [⟨1, []⟩]⟩ "bogus").1 = ⟨0, [⟨1, ["bogus"]⟩]⟩ := ⟨rfl, rfl⟩

/-- C6 amended: an unknown REWARD name is indeed a logged no-op failure
with no state change and no exception (web `exchange`); an out-of-range
rule INDEX, however, is not validated: the desktop variant raises
`IndexError` (before any state change), and the web variant appends the
unknown rule text before raising `ValueError` (see the counterexample). -/
theorem c6_invalid_selection_amended :
    (∀ (s : Web.WState) (wrest : List Web.WDay) (wcur : Web.WDay) (reward : String),
      s.days = wrest ++ [wcur] → reward ≠ "toy" → reward ≠ "hockey_game" →
      Web.exchange s reward = (s, ["Exchange failed: not enough points for " ++ reward]))
    ∧ (∀ (d : Desktop.RewardsData) (rest : List Desktop.Day) (cur : Desktop.Day)
        (i : Int) (t : String),
        d.days = rest ++ [cur] → cur.strikes.length < 3 → pyListGet Desktop.RULES i = none →
        Desktop.add_strike_to_current d i t = .error "IndexError: list index out of range") := by
  constructor
  · intro s wrest wcur reward hdec hr1 hr2
    have hgl : (wrest ++ [wcur]).getLast? = some wcur := List.getLast?_concat _
    simp [Web.exchange, hr1, hr2, hdec, Web.current_day, hgl]
  · intro d rest cur i t hdec hlt hnone
    simp only [Desktop.add_strike_to_current, hdec, List.getLast?_concat]
    rw [if_neg (by omega), hnone]

/-- Witness for C6 at concrete inputs: an unknown reward fails without a
state change; rule index 8 (out of the 0..7 range) errors out. -/
theorem c6_invalid_selection_amended_witness :
    Web.exchange ⟨3, [⟨1, []⟩]⟩ "candy" =
      (⟨3, [⟨1, []⟩]⟩, ["Exchange failed: not enough points for " ++ "candy"])
    ∧ Desktop.add_strike_to_current ⟨0, [⟨1, "D", [], false⟩]⟩ 8 "t" =
        .error "IndexError: list index out of range" :=
  ⟨c6_invalid_selection_amended.1 ⟨3, [⟨1, []⟩]⟩ [] ⟨1, []⟩ "candy" rfl
      (by decide) (by decide),
   c6_invalid_selection_amended.2 ⟨0, [⟨1, "D", [], false⟩]⟩ [] ⟨1, "D", [], false⟩ 8 "t" rfl
      (by decide) (by decide)⟩

/-- C7: in the desktop variant, `add_strike_to_current` is a logged no-op
once the current day already has 3 strikes (for any rule index, valid or
not), and consequently every day of every reachable state carries at most
3 strikes. -/
theorem c7_strike_cap :
    (∀ d : Desktop.RewardsData, Desktop.DReach d → ∀ day ∈ d.days, day.strikes.length ≤ 3)
    ∧ (∀ (d : Desktop.RewardsData) (rest : List Desktop.Day) (cur : Desktop.Day)
        (i : Int) (t : String),
        d.days = rest ++ [cur] → 3 ≤ cur.strikes.length →
        Desktop.add_strike_to_current d i t =
          .ok (d, ["Strike limit reached for current day."])) := by
  constructor
  · intro d h day hm
    exact (Desktop.dreach_inv h).2.2 day hm
  · intro d rest cur i t hdec hge
    simp only [Desktop.add_strike_to_current, hdec, List.getLast?_concat]
    rw [if_pos hge]

/-- Witness for C7: the fresh day obeys the bound, and a concrete day
with 3 strikes rejects a fourth. -/
theorem c7_strike_cap_witness :
    (⟨1, "D", [], false⟩ : Desktop.Day).strikes.length ≤ 3
    ∧ Desktop.add_strike_to_current
        ⟨0, [⟨1, "D", [⟨0, "r", "t1"⟩, ⟨0, "r", "t2"⟩, ⟨0, "r", "t3"⟩], false⟩]⟩ 0 "t4" =
      .ok (⟨0, [⟨1, "D", [⟨0, "r", "t1"⟩, ⟨0, "r", "t2"⟩, ⟨0, "r", "t3"⟩], false⟩]⟩,
           ["Strike limit reached for current day."]) :=
  ⟨c7_strike_cap.1 (Desktop.freshD "D") (Desktop.DReach.init "D") ⟨1, "D", [], false⟩ (by decide),
   c7_strike_cap.2 ⟨0, [⟨1, "D", [⟨0, "r", "t1"⟩, ⟨0, "r", "t2"⟩, ⟨0, "r", "t3"⟩], false⟩]⟩
     [] ⟨1, "D", [⟨0, "r", "t1"⟩, ⟨0, "r", "t2"⟩, ⟨0, "r", "t3"⟩], false⟩ 0 "t4" rfl (by decide)⟩

/-- C8 counterexample: on the web variant, both module initialization with
absent storage and `reset_system` leave `days` EMPTY — the claimed
non-emptiness is restored only lazily by the next `current_day()` call, so
it is not an invariant of every reachable state of that variant. -/
theorem c8_web_days_empty_counterexample :
    (Web.web_init none).1.days = [] ∧ (Web.reset_system ⟨none, []⟩).1.days = [] := ⟨rfl, rfl⟩

/-- C8 amended: in the desktop variant, every reachable state has a
non-empty `days` list whose ids are contiguous starting at 1 (the current
day being, by construction of the embedding, its last element); all the
public operations preserve this, which is exactly the closure of
`Desktop.DReach`. -/
theorem c8_desktop_invariant (d : Desktop.RewardsData) (h : Desktop.DReach d) :
    d.days ≠ [] ∧ Desktop.Contig d.days :=
  ⟨(Desktop.dreach_inv h).1, (Desktop.dreach_inv h).2.1⟩

/-- Witness for C8: the fresh state. -/
theorem c8_desktop_invariant_witness :
    (Desktop.freshD "D").days ≠ [] ∧ Desktop.Contig (Desktop.freshD "D").days :=
  c8_desktop_invariant (Desktop.freshD "D") (Desktop.DReach.init "D")

/-- C9: `save` followed by `load` reproduces an equivalent state: loading
what `save_data` wrote returns exactly the serialized value, and decoding
it (the way the code's field accessors read it) yields the original state
— same points, same day ids in order, same strikes in order — in both
variants' schemas. -/
theorem c9_save_load_roundtrip (d : Desktop.RewardsData) (w : Web.WState) (fs : FS) (ts : String) :
    (Desktop.safe_load_data (Desktop.save_data d fs) ts).1 = Desktop.encodeState d
    ∧ Desktop.decodeState (Desktop.encodeState d) = some d
    ∧ Web.decodeWState (Web.encodeW w) = some w :=
  ⟨rfl, Desktop.decodeState_encodeState d, Web.decodeWState_encodeW w⟩

/-- C10: every desktop operation preserves a non-negative points balance:
the two decrementing operations are guarded by sufficient-balance checks,
and the rest only increase, preserve, or zero the balance. -/
theorem c10_points_nonneg (d : Desktop.RewardsData) (h : 0 ≤ d.points)
    (date reward t ts : String) (cost i : Int) (fs : FS) :
    0 ≤ (Desktop.end_day d date).1.points
    ∧ 0 ≤ (Desktop.redeem_points d cost reward).1.points
    ∧ 0 ≤ (Desktop.manual_add_point d).1.points
    ∧ 0 ≤ (Desktop.manual_remove_point d).1.points
    ∧ 0 ≤ (Desktop.reset_system fs ts date).1.points
    ∧ (∀ p, Desktop.add_strike_to_current d i t = .ok p → 0 ≤ p.1.points) := by
  refine ⟨?_, ?_, ?_, ?_, ?_, ?_⟩
  · unfold Desktop.end_day
    split
    · exact h
    · dsimp only
      split <;> simp [Desktop.start_new_day] <;> omega
  · unfold Desktop.redeem_points
    split <;> simp <;> omega
  · simp [Desktop.manual_add_point]
    omega
  · unfold Desktop.manual_remove_point
    split <;> simp <;> omega
  · simp [Desktop.reset_system, Desktop.start_new_day]
  · intro p hp
    unfold Desktop.add_strike_to_current at hp
    split at hp
    · cases hp
      exact h
    · split at hp
      · cases hp
        exact h
      · split at hp
        · cases hp
        · cases hp
          exact h

/-- Witness for C10: ending the fresh day keeps the balance at 0 or above. -/
theorem c10_points_nonneg_witness :
    0 ≤ (Desktop.end_day (Desktop.freshD "D") "E").1.points :=
  (c10_points_nonneg (Desktop.freshD "D") (by decide) "E" "Toy" "t" "T" 5 0 ⟨none, []⟩).1
